import Mathlib

/-!
Shallow embedding of the Tasker_web frontend (src/frontend/src/App.js).

The file models, in Lean, the pure content of the React components that the
claims concern: the auth provider (AuthProvider: logout, initAuth), the top
level render dispatch (App), the task form (TaskForm: formData initialization,
handleSubmit, fetchCategories, handleAddCategory, the priority select), and the
calendar view (CalendarView: getDaysInMonth, getEventsForDate and the grid
rendering of a day cell).

JavaScript Date values are embedded as integers:
  * an instant is its epoch time in milliseconds (an Int);
  * the value of a datetime-local form field, the string
    "YYYY-MM-DDTHH:MM" produced by `toISOString().slice(0, 16)`, is in
    bijection with the number of whole minutes since the epoch of the UTC
    wall clock it displays; we represent the field by that minute count;
  * `new Date(s)` on such a string (no time-zone suffix) interprets it as
    LOCAL time, so its epoch value is the displayed wall clock minus the
    host's UTC offset; the host offset (minutes east of UTC) is passed
    explicitly where the code implicitly uses the host time zone.
-/

namespace Tasker

/-- A logged-in user as the frontend sees it (id, name, picture). -/
structure AppUser where
  id : String
  name : String
  picture : String
deriving DecidableEq, Repr

/-- The three screens the top-level `App` component can render. -/
inductive Screen where
  | loadingScreen
  | dashboard
  | loginPage
deriving DecidableEq, Repr

/-- `App` (App.js lines 968-985): if `loading` show the loading screen,
otherwise `user ? <Dashboard /> : <LoginPage />`. -/
def renderApp (loading : Bool) (user : Option AppUser) : Screen :=
  if loading then Screen.loadingScreen
  else
    match user with
    | some _ => Screen.dashboard
    | none => Screen.loginPage

/-- Outcome of an awaited axios request: the promise resolved or rejected. -/
inductive RequestOutcome where
  | success
  | failure
deriving DecidableEq, Repr

/-- `AuthProvider.logout` (App.js lines 28-36): `setUser(null)` runs in the
`try` branch after the POST succeeds and again in the `catch` branch, so the
resulting user state is `none` either way. -/
def logout (user : Option AppUser) (outcome : RequestOutcome) : Option AppUser :=
  match outcome with
  | RequestOutcome.success => none
  | RequestOutcome.failure => none

/-- The two backend calls `initAuth` can make. -/
inductive ApiCall where
  | postAuthSession (sessionId : String)
  | getAuthMe
deriving DecidableEq, Repr

/-- Observable outcome of one run of `initAuth`. -/
structure InitAuthResult where
  user : Option AppUser
  urlFragmentRemoved : Bool
  loadingSetFalseCount : Nat
  calls : List ApiCall
deriving DecidableEq, Repr

/-- `AuthProvider`'s `initAuth` effect (App.js lines 60-81).
`sessionIdInFragment` is the result of matching `session_id=([^&]+)` against
the URL hash; `exchangeResult` is the user returned by
POST /api/auth/session (`none` = the request rejected, so `processSession`
rethrows before `setUser` runs); `meResult` is the user from GET /api/auth/me
(`none` = rejected, and `checkAuth`'s catch does `setUser(null)`).
`window.history.replaceState` (fragment removal) runs only after
`processSession` resolves; `setLoading(false)` runs once at the end of
either branch. -/
def initAuth (sessionIdInFragment : Option String) (exchangeResult : Option AppUser)
    (meResult : Option AppUser) : InitAuthResult :=
  match sessionIdInFragment with
  | some sid =>
      match exchangeResult with
      | some u =>
          { user := some u, urlFragmentRemoved := true, loadingSetFalseCount := 1,
            calls := [ApiCall.postAuthSession sid] }
      | none =>
          { user := none, urlFragmentRemoved := false, loadingSetFalseCount := 1,
            calls := [ApiCall.postAuthSession sid] }
  | none =>
      { user := meResult, urlFragmentRemoved := false, loadingSetFalseCount := 1,
        calls := [ApiCall.getAuthMe] }

/-- A task as stored by the backend and edited by the form. Optional
timestamps are epoch milliseconds. -/
structure Task where
  id : String
  title : String
  description : String
  category : String
  priority : String
  completed : Bool
  due_date : Option Int
  reminder : Option Int
deriving DecidableEq, Repr

/-- `TaskForm`'s `formData` state. `due_date`/`reminder` hold the
datetime-local field value: `none` is the empty string `''`, `some w` the
string displaying UTC wall-clock minute `w` (see the file comment). -/
structure TaskFormData where
  title : String
  description : String
  category : String
  priority : String
  due_date : Option Int
  reminder : Option Int
deriving DecidableEq, Repr

/-- JavaScript `s || fallback` on strings: the empty string is falsy. -/
def jsOrString (s fallback : String) : String :=
  if s = "" then fallback else s

/-- `new Date(t).toISOString().slice(0, 16)` for epoch-millisecond `t`:
the string shows the UTC wall clock truncated to whole minutes, i.e. UTC
minute `⌊t / 60000⌋`. -/
def toDatetimeLocalValue (t : Int) : Int :=
  t.fdiv 60000

/-- `new Date(s).toISOString()` for a datetime-local string `s` (no zone
suffix): JavaScript parses it as LOCAL time, so wall-clock minute `w` in a
host time zone `tzOffsetEastMinutes` east of UTC denotes epoch millisecond
`(w - tzOffsetEastMinutes) * 60000`. -/
def parseDatetimeLocal (wallClockMinutes tzOffsetEastMinutes : Int) : Int :=
  (wallClockMinutes - tzOffsetEastMinutes) * 60000

/-- `TaskForm`'s `formData` initialization (App.js lines 138-145):
`task?.title || ''`, `task?.category || 'General'`,
`task?.priority || 'Medium'`, and for the timestamps
`task?.due_date ? new Date(task.due_date).toISOString().slice(0, 16) : ''`. -/
def initFormData : Option Task → TaskFormData
  | none =>
      { title := "", description := "", category := "General", priority := "Medium",
        due_date := none, reminder := none }
  | some task =>
      { title := jsOrString task.title ""
        description := jsOrString task.description ""
        category := jsOrString task.category "General"
        priority := jsOrString task.priority "Medium"
        due_date := task.due_date.map toDatetimeLocalValue
        reminder := task.reminder.map toDatetimeLocalValue }

/-- The payload `handleSubmit` passes to `onSubmit` (and the Dashboard then
POSTs/PUTs to /api/tasks). Timestamps are epoch milliseconds, `none` = null. -/
structure SubmitData where
  title : String
  description : String
  category : String
  priority : String
  due_date : Option Int
  reminder : Option Int
deriving DecidableEq, Repr

/-- `TaskForm.handleSubmit` (App.js lines 178-186): spreads `formData` and
replaces `due_date`/`reminder` by
`formData.due_date ? new Date(formData.due_date).toISOString() : null`.
The host time zone the `new Date(string)` parse implicitly uses is the
explicit `tzOffsetEastMinutes` argument. -/
def handleSubmit (tzOffsetEastMinutes : Int) (formData : TaskFormData) : SubmitData :=
  { title := formData.title
    description := formData.description
    category := formData.category
    priority := formData.priority
    due_date := formData.due_date.map (fun w => parseDatetimeLocal w tzOffsetEastMinutes)
    reminder := formData.reminder.map (fun w => parseDatetimeLocal w tzOffsetEastMinutes) }

/-- The HTML `required` attribute on the title input (App.js line 198): the
browser blocks submission exactly when the value is the empty string. -/
def htmlRequiredAllows (value : String) : Bool :=
  value != ""

/-- JavaScript `String.prototype.trim()`: drop leading and trailing
whitespace characters. -/
def jsTrim (s : String) : String :=
  String.mk (((s.data.dropWhile Char.isWhitespace).reverse.dropWhile
    Char.isWhitespace).reverse)

/-- `TaskForm`'s `priorities` array (App.js line 150). -/
def priorities : List String :=
  ["Low", "Medium", "High"]

/-- Selecting an option of the priority `<select>` (App.js lines 269-277):
the select renders exactly the options of `priorities`, and `onChange` does
`setFormData({...formData, priority: e.target.value})`. -/
def selectPriority (formData : TaskFormData) (choice : Fin priorities.length) :
    TaskFormData :=
  { formData with priority := priorities.get choice }

/-- The form state reached from a fresh form (`initFormData none`) after any
sequence of priority-select interactions. -/
def formAfterPriorityChoices (choices : List (Fin priorities.length)) : TaskFormData :=
  choices.foldl selectPriority (initFormData none)

/-- A task whose stored due date is epoch millisecond 0
(1970-01-01T00:00:00.000Z). -/
def c1TaskMidnight : Task :=
  { id := "t1", title := "x", description := "", category := "General",
    priority := "Medium", completed := false, due_date := some 0, reminder := none }

/-- A task whose stored due date is epoch millisecond 90000
(1970-01-01T00:01:30.000Z: thirty seconds past a whole minute). -/
def c1TaskSeconds : Task :=
  { c1TaskMidnight with due_date := some 90000 }

/-- The whitespace-only title a user can type into the task form. -/
def c2FormData : TaskFormData :=
  { initFormData none with title := " " }

/-- Claim C1: the spec asserts the due-date edit round-trip (initialize the
form field with `new Date(value).toISOString().slice(0,16)`, submit with
`new Date(field).toISOString()`) is the identity on the stored instant in
every host time zone. The code refutes this: in a UTC+1 host (offset 60
minutes east) a stored due date of epoch 0 is resubmitted as epoch
-3600000, one hour earlier, because the field shows UTC wall clock but is
re-parsed as local time; and even in UTC (offset 0) a stored due date of
epoch 90000 comes back as 60000 because `slice(0, 16)` drops the seconds. -/
theorem due_date_roundtrip_not_identity :
    (handleSubmit 60 (initFormData (some c1TaskMidnight))).due_date = some (-3600000)
      ∧ c1TaskMidnight.due_date = some 0
      ∧ (handleSubmit 60 (initFormData (some c1TaskMidnight))).due_date
          ≠ c1TaskMidnight.due_date
      ∧ (handleSubmit 0 (initFormData (some c1TaskSeconds))).due_date = some 60000
      ∧ c1TaskSeconds.due_date = some 90000
      ∧ (handleSubmit 0 (initFormData (some c1TaskSeconds))).due_date
          ≠ c1TaskSeconds.due_date := by
  refine ⟨by decide, by decide, by decide, by decide, by decide, by decide⟩

/-- Claim C2: the spec requires that a title consisting only of whitespace is
never submitted. The code refutes this: `handleSubmit` passes `formData.title`
through untrimmed and unchecked, and the only guard, the HTML `required`
attribute, accepts the single-space title `" "` (it is a non-empty string),
so the whitespace-only title is submitted as is. -/
theorem whitespace_title_is_submitted :
    ∀ (tz : Int) (fd : TaskFormData), (handleSubmit tz fd).title = fd.title
      ∧ htmlRequiredAllows c2FormData.title = true
      ∧ (handleSubmit 0 c2FormData).title = " "
      ∧ jsTrim (handleSubmit 0 c2FormData).title = "" := by
  intro tz fd
  exact ⟨rfl, by decide, by decide, by decide⟩

/-- Claim C4: the top-level render is a pure function of the single state
pair (loading, user): while loading the loading screen is shown, and once
loading is false the app shows `Dashboard` iff `user` is non-null and
`LoginPage` iff `user` is null — one screen exactly, never both, never
neither. -/
theorem renderApp_state_machine :
    ∀ user : Option AppUser,
      renderApp true user = Screen.loadingScreen
        ∧ (renderApp false user = Screen.dashboard ↔ user ≠ none)
        ∧ (renderApp false user = Screen.loginPage ↔ user = none)
        ∧ renderApp false user ≠ Screen.loadingScreen := by
  intro user
  cases user <;> simp [renderApp]

/-- Claim C5: `logout` always ends anonymous: whatever the previous user
state and whether POST /api/auth/logout succeeds or fails, the resulting
user state is `none`. -/
theorem logout_always_clears_user :
    ∀ (user : Option AppUser) (outcome : RequestOutcome),
      logout user outcome = none := by
  intro user outcome
  cases outcome <;> rfl

/-- C7's claim, instantiated where the session exchange fails: the claim
says that whenever the fragment holds a session_id, the fragment is removed
from the URL; but when POST /api/auth/session rejects, `initAuth` skips
`window.history.replaceState` and the fragment stays. -/
theorem initAuth_fragment_kept_on_failure :
    (initAuth (some "sid") none none).urlFragmentRemoved = false := by
  rfl

/-- Claim C7 (amended): on load, `initAuth` reconstructs the user from
exactly one source — POST /api/auth/session when the fragment holds a
session_id (removing the fragment only when the exchange succeeds; on
failure the fragment stays), GET /api/auth/me otherwise — and in every case,
success or failure of either call, it makes exactly one backend call and
sets loading to false exactly once. -/
theorem initAuth_single_source_and_loading :
    ∀ (sid : String) (u : AppUser) (exchangeResult meResult : Option AppUser)
      (sidOpt : Option String),
      initAuth (some sid) (some u) meResult
          = { user := some u, urlFragmentRemoved := true, loadingSetFalseCount := 1,
              calls := [ApiCall.postAuthSession sid] }
        ∧ initAuth (some sid) none meResult
            = { user := none, urlFragmentRemoved := false, loadingSetFalseCount := 1,
                calls := [ApiCall.postAuthSession sid] }
        ∧ initAuth none exchangeResult meResult
            = { user := meResult, urlFragmentRemoved := false, loadingSetFalseCount := 1,
                calls := [ApiCall.getAuthMe] }
        ∧ (initAuth sidOpt exchangeResult meResult).loadingSetFalseCount = 1
        ∧ (initAuth sidOpt exchangeResult meResult).calls.length = 1 := by
  intro sid u exchangeResult meResult sidOpt
  refine ⟨rfl, rfl, rfl, ?_, ?_⟩ <;>
    cases sidOpt <;> cases exchangeResult <;> rfl

lemma priority_mem_after_choices (choices : List (Fin priorities.length)) :
    ∀ fd : TaskFormData, fd.priority ∈ priorities →
      (choices.foldl selectPriority fd).priority ∈ priorities := by
  induction choices with
  | nil => intro fd h; exact h
  | cons c cs ih =>
      intro fd _
      exact ih (selectPriority fd c) (List.get_mem priorities c.1 c.2)

/-- Claim C6: a fresh task form starts with category "General" and priority
"Medium"; the priority selector offers exactly the options Low, Medium,
High; and after any sequence of priority-select interactions the submitted
priority is one of Low, Medium, High while an untouched category is
submitted as "General". -/
theorem taskform_defaults_and_priority_options :
    ∀ (choices : List (Fin priorities.length)) (tz : Int),
      (initFormData none).category = "General"
        ∧ (initFormData none).priority = "Medium"
        ∧ priorities = ["Low", "Medium", "High"]
        ∧ (handleSubmit tz (initFormData none)).category = "General"
        ∧ (handleSubmit tz (formAfterPriorityChoices choices)).priority ∈ priorities := by
  intro choices tz
  refine ⟨rfl, rfl, rfl, rfl, ?_⟩
  show (formAfterPriorityChoices choices).priority ∈ priorities
  exact priority_mem_after_choices choices (initFormData none) (by decide)

/-- The six default categories hard-coded in the frontend (App.js
lines 147 and 160). -/
def defaultCategories : List String :=
  ["General", "Work", "Personal", "Health", "Shopping", "Finance"]

/-- One step of iterating a JavaScript `Set` insertion: `Set` keeps the
first occurrence of each element, in insertion order. -/
def insertIfNew (acc : List String) (x : String) : List String :=
  if x ∈ acc then acc else acc ++ [x]

/-- `[...new Set(l)]`: the elements of `l` with later duplicates removed,
in first-occurrence order. -/
def jsSetToList (l : List String) : List String :=
  l.foldl insertIfNew []

/-- `fetchCategories` (App.js lines 156-166 in `TaskForm`, 619-630 in
`Dashboard`): on success, `availableCategories` is set to
`[...new Set([...defaultCategories, ...userCategories])]`. -/
def fetchCategories (userCategories : List String) : List String :=
  jsSetToList (defaultCategories ++ userCategories)

lemma foldl_insertIfNew_append (l : List String) :
    ∀ acc : List String, ∃ r, l.foldl insertIfNew acc = acc ++ r := by
  induction l with
  | nil => intro acc; exact ⟨[], by simp⟩
  | cons x xs ih =>
      intro acc
      show ∃ r, xs.foldl insertIfNew (insertIfNew acc x) = acc ++ r
      obtain ⟨r, hr⟩ := ih (insertIfNew acc x)
      by_cases hx : x ∈ acc
      · exact ⟨r, by rw [hr]; simp [insertIfNew, hx]⟩
      · exact ⟨x :: r, by rw [hr]; simp [insertIfNew, hx]⟩

lemma mem_insertIfNew {c x : String} {acc : List String} :
    c ∈ insertIfNew acc x ↔ c ∈ acc ∨ c = x := by
  by_cases hx : x ∈ acc
  · simp only [insertIfNew, if_pos hx]
    constructor
    · exact Or.inl
    · rintro (h | rfl)
      · exact h
      · exact hx
  · simp [insertIfNew, if_neg hx]

lemma mem_foldl_insertIfNew (l : List String) :
    ∀ (acc : List String) (c : String),
      c ∈ l.foldl insertIfNew acc ↔ c ∈ acc ∨ c ∈ l := by
  induction l with
  | nil => intro acc c; simp
  | cons x xs ih =>
      intro acc c
      show c ∈ xs.foldl insertIfNew (insertIfNew acc x) ↔ _
      rw [ih (insertIfNew acc x) c, mem_insertIfNew]
      simp [or_assoc]

lemma nodup_foldl_insertIfNew (l : List String) :
    ∀ acc : List String, acc.Nodup → (l.foldl insertIfNew acc).Nodup := by
  induction l with
  | nil => intro acc h; exact h
  | cons x xs ih =>
      intro acc hacc
      show (xs.foldl insertIfNew (insertIfNew acc x)).Nodup
      apply ih
      by_cases hx : x ∈ acc
      · simpa [insertIfNew, hx] using hacc
      · simp [insertIfNew, hx, List.nodup_append, hacc]

/-- Claim C3: for every list of user-derived categories, the merged
`availableCategories` list is duplicate-free, contains exactly the defaults
and the returned categories, and starts with the six defaults in their
fixed order. -/
theorem fetchCategories_merges_defaults :
    ∀ userCategories : List String,
      (fetchCategories userCategories).Nodup
        ∧ (∀ c, c ∈ fetchCategories userCategories
            ↔ (c ∈ defaultCategories ∨ c ∈ userCategories))
        ∧ (fetchCategories userCategories).take defaultCategories.length
            = defaultCategories := by
  intro userCategories
  refine ⟨?_, ?_, ?_⟩
  · exact nodup_foldl_insertIfNew _ [] (by simp)
  · intro c
    rw [show fetchCategories userCategories
          = (defaultCategories ++ userCategories).foldl insertIfNew [] from rfl,
        mem_foldl_insertIfNew]
    simp
  · have hsplit : fetchCategories userCategories
        = userCategories.foldl insertIfNew defaultCategories := by
      rw [show fetchCategories userCategories
            = (defaultCategories ++ userCategories).foldl insertIfNew [] from rfl,
          List.foldl_append]
      rfl
    obtain ⟨r, hr⟩ := foldl_insertIfNew_append userCategories defaultCategories
    rw [hsplit, hr, List.take_left]

/-- `TaskForm.handleAddCategory` (App.js lines 168-176): append the trimmed
new name to `availableCategories` only when it is non-empty after trimming
and not already present. -/
def handleAddCategory (availableCategories : List String) (newCategory : String) :
    List String :=
  if jsTrim newCategory ≠ "" ∧ jsTrim newCategory ∉ availableCategories then
    availableCategories ++ [jsTrim newCategory]
  else
    availableCategories

/-- The operations that mutate `TaskForm`'s `availableCategories` state:
a successful `fetchCategories`, a failed one (the catch branch only logs),
and `handleAddCategory`. -/
inductive CategoryOp where
  | fetchSuccess (userCategories : List String)
  | fetchFailure
  | addCategory (newCategory : String)

/-- One state transition of the `availableCategories` list. -/
def applyCategoryOp (availableCategories : List String) : CategoryOp → List String
  | CategoryOp.fetchSuccess userCategories => fetchCategories userCategories
  | CategoryOp.fetchFailure => availableCategories
  | CategoryOp.addCategory newCategory =>
      handleAddCategory availableCategories newCategory

/-- The `availableCategories` state after any sequence of operations,
starting from the initial `useState` value (App.js line 147), which is the
six default categories. -/
def runCategoryOps (ops : List CategoryOp) : List String :=
  ops.foldl applyCategoryOp defaultCategories

lemma applyCategoryOp_nodup (availableCategories : List String) (op : CategoryOp)
    (h : availableCategories.Nodup) : (applyCategoryOp availableCategories op).Nodup := by
  cases op with
  | fetchSuccess userCategories => exact nodup_foldl_insertIfNew _ [] (by simp)
  | fetchFailure => exact h
  | addCategory newCategory =>
      by_cases hc : jsTrim newCategory ≠ "" ∧ jsTrim newCategory ∉ availableCategories
      · simp [applyCategoryOp, handleAddCategory, hc, List.nodup_append, h, hc.2]
      · simpa [applyCategoryOp, handleAddCategory, hc] using h

lemma foldl_applyCategoryOp_nodup (ops : List CategoryOp) :
    ∀ availableCategories : List String, availableCategories.Nodup →
      (ops.foldl applyCategoryOp availableCategories).Nodup := by
  induction ops with
  | nil => intro avail h; exact h
  | cons op ops ih =>
      intro avail h
      exact ih (applyCategoryOp avail op) (applyCategoryOp_nodup avail op h)

/-- Claim C10: `availableCategories` never contains duplicates after any
sequence of operations — the initial default list is duplicate-free,
`fetchCategories` deduplicates through a `Set`, a failed fetch leaves the
list unchanged, and `handleAddCategory` appends only a trimmed name that is
non-empty and not already present. -/
theorem availableCategories_nodup :
    ∀ ops : List CategoryOp, (runCategoryOps ops).Nodup := by
  intro ops
  exact foldl_applyCategoryOp_nodup ops defaultCategories (by decide)

/-- The Gregorian leap-year rule, as implemented by JavaScript `Date` for
February (`new Date(year, month + 1, 0).getDate()`). -/
def isLeapYear (y : Nat) : Bool :=
  (y % 4 == 0 && y % 100 != 0) || y % 400 == 0

/-- `new Date(year, month + 1, 0).getDate()` for 0-based `month`: the number
of days of that month of that year. -/
def daysInMonth (year month : Nat) : Nat :=
  match month with
  | 0 => 31
  | 1 => if isLeapYear year then 29 else 28
  | 2 => 31
  | 3 => 30
  | 4 => 31
  | 5 => 30
  | 6 => 31
  | 7 => 31
  | 8 => 30
  | 9 => 31
  | 10 => 30
  | _ => 31

/-- `new Date(y, m - 1, d).getDay()` for 1-based month `m`: the Gregorian
weekday (0 = Sunday) by Sakamoto's method. -/
def dayOfWeek (y m d : Nat) : Nat :=
  let t : List Nat := [0, 3, 2, 5, 0, 3, 5, 1, 4, 6, 2, 4]
  let y2 := if m < 3 then y - 1 else y
  (y2 + y2 / 4 + y2 / 400 + t.getD (m - 1) 0 + d - y2 / 100) % 7

/-- `new Date(year, month, 1).getDay()` for 0-based `month`: the weekday
index of the first day of the month. -/
def startingDayOfWeek (year month : Nat) : Nat :=
  dayOfWeek year (month + 1) 1

/-- `CalendarView.getDaysInMonth` (App.js lines 413-434): push one `null`
per weekday slot before the first of the month, then push each day of the
month in order. A day cell is its 1-based day number. -/
def getDaysInMonth (year month : Nat) : List (Option Nat) :=
  let daysInMonthCount := daysInMonth year month
  let firstWeekday := startingDayOfWeek year month
  let days := (List.range firstWeekday).foldl
    (fun ds _ => ds ++ [none]) ([] : List (Option Nat))
  (List.range daysInMonthCount).foldl (fun ds i => ds ++ [some (i + 1)]) days

lemma foldl_push_eq_map {α : Type} (f : Nat → α) (k : Nat) :
    ∀ init : List α,
      (List.range k).foldl (fun ds i => ds ++ [f i]) init
        = init ++ (List.range k).map f := by
  induction k with
  | zero => intro init; simp
  | succ n ih =>
      intro init
      simp [List.range_succ, List.foldl_append, ih]

/-- Claim C8: for every month, `getDaysInMonth` is exactly `w` leading
`null` slots — `w` the weekday index (0 = Sunday) of the first of the
month — followed by the days 1 through `n` in ascending order, `n` the
number of days of the month; its length is `w + n` and it contains nothing
else. -/
theorem getDaysInMonth_shape :
    ∀ year month : Nat,
      getDaysInMonth year month
          = List.replicate (startingDayOfWeek year month) none
            ++ (List.range (daysInMonth year month)).map (fun i => some (i + 1))
        ∧ (getDaysInMonth year month).length
            = startingDayOfWeek year month + daysInMonth year month := by
  intro year month
  have h : getDaysInMonth year month
      = List.replicate (startingDayOfWeek year month) none
        ++ (List.range (daysInMonth year month)).map (fun i => some (i + 1)) := by
    show (List.range (daysInMonth year month)).foldl _
        ((List.range (startingDayOfWeek year month)).foldl _ []) = _
    rw [foldl_push_eq_map, foldl_push_eq_map]
    simp [List.map_const']
  refine ⟨h, ?_⟩
  simp [h]

/-- A JavaScript `Date` instant as the calendar view compares it:
`toDateString()` renders exactly the local calendar day, so two instants
compare equal under `toDateString()` equality iff their `day` components
agree; `msOfDay` is the time within the day, which `toDateString()`
ignores. -/
structure Instant where
  day : Int
  msOfDay : Nat
deriving DecidableEq, Repr

/-- A calendar event as the frontend receives it from
GET /api/calendar/events. -/
structure CalendarEvent where
  id : String
  title : String
  start_time : Instant
  all_day : Bool
deriving DecidableEq, Repr

/-- `CalendarView.getEventsForDate` (App.js lines 445-450): filter the
events whose `start_time` has the same `toDateString()` as the given
date. -/
def getEventsForDate (events : List CalendarEvent) (date : Instant) :
    List CalendarEvent :=
  events.filter (fun event => event.start_time.day == date.day)

/-- What the month grid renders inside one day cell (App.js lines
570-587): the titles of `getEventsForDate(day).slice(0, 2)`, and a
"+k more" indicator exactly when more than two events fall on the day. -/
structure DayCellRender where
  shown : List String
  moreCount : Option Nat
deriving DecidableEq, Repr

/-- The event area of one day cell of the month grid. -/
def renderDayCell (events : List CalendarEvent) (day : Instant) : DayCellRender :=
  { shown := ((getEventsForDate events day).take 2).map (fun e => e.title)
    moreCount :=
      if 2 < (getEventsForDate events day).length then
        some ((getEventsForDate events day).length - 2)
      else
        none }

/-- Claim C9: the events considered for a day cell are exactly the events
whose start_time falls on that calendar day; at most the first two are
rendered as titles; and the "+k more" indicator appears iff the day has
more than two events, with k the day's event count minus two. -/
theorem dayCell_events_and_overflow :
    ∀ (events : List CalendarEvent) (d : Instant),
      (∀ e, e ∈ getEventsForDate events d ↔ (e ∈ events ∧ e.start_time.day = d.day))
        ∧ (renderDayCell events d).shown
            = ((getEventsForDate events d).take 2).map CalendarEvent.title
        ∧ (renderDayCell events d).shown.length ≤ 2
        ∧ (∀ k, (renderDayCell events d).moreCount = some k
            ↔ (2 < (getEventsForDate events d).length
                ∧ k = (getEventsForDate events d).length - 2))
        ∧ ((renderDayCell events d).moreCount = none
            ↔ (getEventsForDate events d).length ≤ 2) := by
  intro events d
  refine ⟨?_, rfl, ?_, ?_, ?_⟩
  · intro e
    simp [getEventsForDate, List.mem_filter]
  · simp only [renderDayCell, List.length_map, List.length_take]
    omega
  · intro k
    by_cases h2 : 2 < (getEventsForDate events d).length
    · simp [renderDayCell, h2, eq_comm]
    · simp [renderDayCell, h2]
  · by_cases h2 : 2 < (getEventsForDate events d).length <;>
      simp [renderDayCell, h2] <;> omega

end Tasker
